import Mathlib

/-!
Verification of the wasmer-borealis experiment pipeline.

The definitions below are a shallow embedding of the Rust sources:
registry data model and discovery (`registry/mod.rs`, `experiment/wapm.rs`),
the asset cache (`experiment/cache.rs`), the orchestrator
(`experiment/orchestrator.rs`), the per-case runner (`experiment/runner.rs`)
and the configuration model (`config.rs`).  Filesystem and network effects
are modelled by explicit oracle records whose fields carry the injected
outcome of each effectful operation, and each effectful function returns a
trace of the operations it performed alongside its result.
-/

namespace WasmerBorealis

/-! ## Registry data model (`registry/mod.rs`, module `queries`) -/

/-- Rust `PackageDistribution`: download URLs for one published package version. -/
structure PackageDistribution where
  download_url : String
  pirita_download_url : Option String
deriving Repr, DecidableEq

/-- Rust `PackageVersion`: one published version of a registry package. -/
structure PackageVersion where
  id : String
  version : String
  distribution : PackageDistribution
deriving Repr, DecidableEq

/-- Rust `Package`: one registry package as returned by the GraphQL listing
queries.  `display_name` is a field supplied by the registry, distinct from
the `namespace` and `package_name` fields. -/
structure Package where
  id : String
  package_name : String
  «namespace» : String
  display_name : String
  last_version : Option PackageVersion
  versions : List (Option PackageVersion)
deriving Repr, DecidableEq

/-! ## Test cases (`experiment/wapm.rs`, newer revision with `registry`) -/

/-- Rust `TestCase`: a package version selected for the experiment. -/
structure TestCase where
  registry : String
  «namespace» : String
  package_name : String
  package_version : PackageVersion
deriving Repr, DecidableEq

/-- Rust `TestCase::tarball_url`. -/
def TestCase.tarball_url (tc : TestCase) : String :=
  tc.package_version.distribution.download_url

/-- Rust `TestCase::webc_url`. -/
def TestCase.webc_url (tc : TestCase) : Option String :=
  tc.package_version.distribution.pirita_download_url

/-- Rust `TestCase::version`. -/
def TestCase.version (tc : TestCase) : String :=
  tc.package_version.version

/-- Rust `TestCase::display_name`: `format!("{}/{}", namespace, package_name)`. -/
def TestCase.display_name (tc : TestCase) : String :=
  tc.«namespace» ++ "/" ++ tc.package_name

/-- Rust `TestCase::new`. -/
def TestCase.new (registry_hostname ns package_name : String)
    (package_version : PackageVersion) : TestCase :=
  ⟨registry_hostname, ns, package_name, package_version⟩

/-- Rust `TestCase::all`: one test case per non-null entry of `versions`. -/
def TestCase.all (registry_hostname : String) (pkg : Package) : List TestCase :=
  (pkg.versions.filterMap id).map fun version =>
    TestCase.new registry_hostname pkg.«namespace» pkg.package_name version

/-- Rust `TestCase::latest`: a single test case from `last_version`, if present. -/
def TestCase.latest (registry_hostname : String) (pkg : Package) : List TestCase :=
  match pkg.last_version with
  | some version => [TestCase.new registry_hostname pkg.«namespace» pkg.package_name version]
  | none => []

/-! ## Configuration model (`config.rs`) -/

/-- Rust `TemplatedString`: a raw string resolved against a lookup at use time. -/
structure TemplatedString where
  raw : String
deriving Repr, DecidableEq

/-- Rust `WasmerVersion`. -/
inductive WasmerVersion where
  | Local (path : String)
  | Release (version : String)
  | Latest
deriving Repr, DecidableEq

/-- Rust `WasmerConfig`.  `env` is an `IndexMap`, modelled as an association list
in insertion order with unique keys. -/
structure WasmerConfig where
  version : WasmerVersion
  args : List TemplatedString
  env : List (String × TemplatedString)
deriving Repr, DecidableEq

/-- Rust `Filters` from `config.rs`. -/
structure Filters where
  namespaces : List String
  users : List String
  blacklist : List String
  include_every_version : Bool
deriving Repr, DecidableEq

/-- Rust `Filters::default()`: all fields empty, `include_every_version = false`. -/
def Filters.default : Filters := ⟨[], [], [], false⟩

/-- Rust `Filters::is_empty` (`config.rs` lines 156-160): checks only
`namespaces` and `blacklist`. -/
def Filters.is_empty (f : Filters) : Bool :=
  f.namespaces.isEmpty && f.blacklist.isEmpty

/-- Rust `Experiment` from `config.rs`. -/
structure Experiment where
  package : String
  command : Option String
  args : List TemplatedString
  env : List (String × TemplatedString)
  wasmer : WasmerConfig
  filters : Filters
deriving Repr, DecidableEq

/-- Serialization of the `filters` field of an `Experiment`: serde skips the
field when `Filters::is_empty` returns true
(`#[serde(default, skip_serializing_if = "Filters::is_empty")]`). -/
def serializedFilters (f : Filters) : Option Filters :=
  if f.is_empty then none else some f

/-- Deserialization of the `filters` field: an absent field becomes
`Filters::default()` (`#[serde(default)]`). -/
def deserializedFilters (o : Option Filters) : Filters :=
  o.getD Filters.default

/-- The serialize-then-deserialize round trip on the `filters` field. -/
def roundtripFilters (f : Filters) : Filters :=
  deserializedFilters (serializedFilters f)

/-! ## Discovery page filtering (`experiment/wapm.rs`, `discover_test_cases`,
newer revision, lines 140-151) -/

/-- The body of `receiver.map` in `discover_test_cases`: filter a page of
packages through the blacklist
(`blacklist.is_empty() || !blacklist.contains(&pkg.display_name)`), then
expand each surviving package into test cases, either every non-null
version or just `last_version`. -/
def pageToTestCases (blacklist : List String) (include_every_version : Bool)
    (hostname : String) (page : List Package) : List TestCase :=
  (page.filter fun pkg => blacklist.isEmpty || !(blacklist.contains pkg.display_name)).flatMap
    fun pkg =>
      if include_every_version then TestCase.all hostname pkg
      else TestCase.latest hostname pkg

/-! ## Registry pagination and GraphQL error handling
(`registry/mod.rs`, `packages_query`, lines 85-126) -/

/-- Rust `PackageEdge` from the GraphQL `PackageConnection`. -/
structure PackageEdge where
  node : Option Package
deriving Repr, DecidableEq

/-- A GraphQL response for one page request: the optional `errors` array and
the optional `data` payload, already narrowed to the `edges` list of the
relevant `PackageConnection` (what `get_packages` extracts). -/
structure GraphQlResponse where
  errors : Option (List String)
  data : Option (List (Option PackageEdge))
deriving Repr, DecidableEq

/-- Outcome of one `packages_query` call.  `panicked` models the `todo!()`
reached for a non-empty `errors` array, which aborts the whole task rather
than returning an `Err`. -/
inductive QueryOutcome where
  | panicked (msg : String)
  | failed (error : String)
  | completed
deriving Repr, DecidableEq

/-- The `loop` of `packages_query`, driven by the list of responses the
server returns for offsets 0, n₀, n₀+n₁, …; `sent` accumulates the pages
pushed into `dest`.  Per the source: a `Some(errors)` with non-empty
contents hits `todo!("Handle errors: …")`; missing `data` is
`Err("Invalid query")`; an empty page breaks the loop. -/
def packagesQueryLoop : List GraphQlResponse → List (List Package) →
    QueryOutcome × List (List Package)
  | [], sent => (.completed, sent)
  | response :: rest, sent =>
    if (response.errors.getD []).isEmpty = false then
      (.panicked "Handle errors", sent)
    else
      match response.data with
      | none => (.failed "Invalid query", sent)
      | some edges =>
        let packages := (edges.filterMap id).filterMap PackageEdge.node
        if packages.isEmpty then (.completed, sent)
        else packagesQueryLoop rest (sent ++ [packages])

/-- How discovery runs listings (`experiment/wapm.rs`, newer revision,
lines 102-138): each listing in turn; a listing that returns `Err` is
logged at error level and the loop continues with the remaining listings; a
panic propagates and kills the whole spawned task, so remaining listings
are never processed.  Returns the final outcome, the number of listings
actually processed, and every page forwarded downstream. -/
def runListings : List (List GraphQlResponse) →
    QueryOutcome × Nat × List (List Package)
  | [] => (.completed, 0, [])
  | listing :: rest =>
    match packagesQueryLoop listing [] with
    | (.panicked msg, sent) => (.panicked msg, 1, sent)
    | (.failed _, sent) =>
      let (outcome, n, pages) := runListings rest
      (outcome, n + 1, sent ++ pages)
    | (.completed, sent) =>
      let (outcome, n, pages) := runListings rest
      (outcome, n + 1, sent ++ pages)

/-! ## Paths

Paths are modelled as strings joined with `/`.  `withExtension` mirrors
`PathBuf::with_extension`: the extension (text after the last `.` of the
final component, unless the component starts with that sole `.`) is
replaced. -/

/-- Rust `Path::file_stem` on a single path component: drop the last `.` and
what follows, unless the only `.` is the leading character. -/
def fileStemChars (name : List Char) : List Char :=
  match (name.reverse.dropWhile (fun c => !(c = '.'))) with
  | [] => name
  | _ :: rest => if rest.isEmpty then name else rest.reverse

/-- Rust `PathBuf::with_extension`: replace the extension of the final component. -/
def withExtension (path ext : String) : String :=
  let rev := path.data.reverse
  let fileRev := rev.takeWhile (fun c => !(c = '/'))
  let dirRev := rev.dropWhile (fun c => !(c = '/'))
  String.mk (dirRev.reverse ++ fileStemChars fileRev.reverse ++ ('.' :: ext.data))

/-- Rust `Path::file_name`: the final component of a path. -/
def fileName (path : String) : String :=
  String.mk ((path.data.reverse.takeWhile (fun c => !(c = '/'))).reverse)

/-- Rust `Path::parent`: the path with its final component and the separator
removed. -/
def parentDir (path : String) : String :=
  String.mk (((path.data.reverse.dropWhile (fun c => !(c = '/'))).drop 1).reverse)

/-! ## The asset cache (`experiment/cache.rs`, newer revision) -/

/-- Rust `Assets`: on-disk artifacts for one test case. -/
structure Assets where
  tarball : String
  webc : Option String
  total_size : Nat
deriving Repr, DecidableEq

/-- Rust `package_version_dir`:
`dir/{registry}/{namespace}/{package_name}/{version}`. -/
def package_version_dir (dir : String) (tc : TestCase) : String :=
  dir ++ "/" ++ tc.registry ++ "/" ++ tc.«namespace» ++ "/" ++ tc.package_name ++ "/"
    ++ tc.version

/-- The tarball path inside the cache:
`cache_dir.join(&package_name).with_extension("tar.gz")`. -/
def tarballCachePath (dir : String) (tc : TestCase) : String :=
  withExtension (package_version_dir dir tc ++ "/" ++ tc.package_name) "tar.gz"

/-- The webc path inside the cache:
`cache_dir.join(&package_name).with_extension("webc")`. -/
def webcCachePath (dir : String) (tc : TestCase) : String :=
  withExtension (package_version_dir dir tc ++ "/" ++ tc.package_name) "webc"

/-- Rust `CacheStatusMessage` (`experiment/cache.rs`, newer revision, lines
92-104).  Note: this revision has exactly three variants; there is no
`DownloadFailed` variant. -/
inductive CacheStatusMessage where
  | Fetching (test_case : TestCase)
  | CacheHit (test_case : TestCase)
  | CacheMiss (test_case : TestCase) (duration : Nat) (bytes_downloaded : Nat)
deriving Repr, DecidableEq

/-- One step performed while serving a `FetchAssets` request, at the
granularity the temporal claims talk about: semaphore permit acquisition
and release, progress messages sent to the `Recipient`, the cache-hit
metadata check, and the network download (the whole `do_download` call). -/
inductive CacheAction where
  | acquire
  | release
  | emit (message : CacheStatusMessage)
  | checkMetadata
  | networkDownload
deriving Repr, DecidableEq

/-- A filesystem operation performed by `do_download`, in the order the
source performs them. -/
inductive FsOp where
  | createDirAll (path : String)
  | mkTempDirIn (parent : String)
  | downloadTo (url : String) (dest : String)
  | removeDirAll (path : String)
  | rename (src : String) (dest : String)
deriving Repr, DecidableEq

/-- Outcome of `tokio::fs::remove_dir_all` on the destination directory:
success, a `NotFound` error (ignored by the source), or any other error. -/
inductive RemoveOutcome where
  | ok
  | notFound
  | err (e : String)
deriving Repr, DecidableEq

/-- Injected outcomes for every effectful operation `do_download` may
perform, plus the elapsed duration measured around it.  Each field is the
result the corresponding syscall / HTTP request would produce. -/
structure DownloadWorld where
  createCacheRoot : Except String Unit
  createTemp : Except String Unit
  tmpName : String
  tarballDownload : Except String Nat
  webcDownload : Except String Nat
  removeDest : RemoveOutcome
  createParent : Except String Unit
  renameResult : Except String Unit
  removeTempResult : Except String Unit
  elapsed : Nat
deriving Repr

/-- Rust anyhow `.context(msg)`: prepend a context line to an error. -/
def errContext (msg e : String) : String := msg ++ ": " ++ e

/-- The tail of `do_download` after both downloads succeeded (lines
209-262): remove any existing destination (ignoring `NotFound`), create the
parent of the destination, rename the temporary directory into place, and on
rename failure best-effort remove the temporary directory and surface the
rename error. -/
def persistDownloaded (w : DownloadWorld) (cacheDir tempPath : String)
    (tarballPath : String) (webc : Option String) (bytesDownloaded : Nat)
    (trace : List FsOp) : List FsOp × Except String Assets :=
  let t1 := trace ++ [FsOp.removeDirAll cacheDir]
  match w.removeDest with
  | .err e => (t1, .error (errContext ("Unable to remove \"" ++ cacheDir ++ "\"") e))
  | _ =>
    let parent := parentDir cacheDir
    let t2 := t1 ++ [FsOp.createDirAll parent]
    match w.createParent with
    | .error e => (t2, .error (errContext ("Unable to create \"" ++ parent ++ "\"") e))
    | .ok _ =>
      let t3 := t2 ++ [FsOp.rename tempPath cacheDir]
      match w.renameResult with
      | .error e =>
        (t3 ++ [FsOp.removeDirAll tempPath],
          .error (errContext
            ("Unable to persist \"" ++ tempPath ++ "\" to \"" ++ cacheDir ++ "\"") e))
      | .ok _ =>
        (t3, .ok { tarball := tarballPath, webc := webc, total_size := bytesDownloaded })

/-- Rust `do_download` (`experiment/cache.rs`, newer revision, lines 178-263):
create the cache root, create a temporary directory inside it, download the
tarball (and the webc when a URL is present) into the temporary directory
under the filenames they will have at the destination, then persist via
`persistDownloaded`. -/
def do_download (w : DownloadWorld) (dir : String) (tc : TestCase) :
    List FsOp × Except String Assets :=
  let cacheDir := package_version_dir dir tc
  let tarballPath := tarballCachePath dir tc
  let webcPath := webcCachePath dir tc
  let tempPath := dir ++ "/" ++ w.tmpName
  let t1 := [FsOp.createDirAll dir]
  match w.createCacheRoot with
  | .error e => (t1, .error (errContext ("Unable to create \"" ++ dir ++ "\"") e))
  | .ok _ =>
    let t2 := t1 ++ [FsOp.mkTempDirIn dir]
    match w.createTemp with
    | .error e => (t2, .error (errContext "Unable to create a temporary directory" e))
    | .ok _ =>
      let t3 := t2 ++ [FsOp.downloadTo tc.tarball_url (tempPath ++ "/" ++ fileName tarballPath)]
      match w.tarballDownload with
      | .error e =>
        (t3, .error (errContext ("Downloading \"" ++ tc.tarball_url ++ "\" failed") e))
      | .ok tarballBytes =>
        match tc.webc_url with
        | some url =>
          let t4 := t3 ++ [FsOp.downloadTo url (tempPath ++ "/" ++ fileName webcPath)]
          match w.webcDownload with
          | .error e => (t4, .error (errContext ("Downloading \"" ++ url ++ "\" failed") e))
          | .ok webcBytes =>
            persistDownloaded w cacheDir tempPath tarballPath (some webcPath)
              (tarballBytes + webcBytes) t4
        | none =>
          persistDownloaded w cacheDir tempPath tarballPath none tarballBytes t3

/-- A consistent snapshot of the cache directory for one test case:
whether `cache_dir` exists, and the `std::fs::metadata` results (file
sizes) for the tarball and webc paths; `none` models a file that does not
exist (so `exists()` is false and `metadata` errs). -/
structure CacheFs where
  cacheDirExists : Bool
  tarballSize : Option Nat
  webcSize : Option Nat
deriving Repr, DecidableEq

/-- Rust `prepare_assets` (`experiment/cache.rs`, newer revision, lines
106-176): send `Fetching`, check `cache_dir.exists() &&
tarball_path.exists()`; on a hit, stat both files, build `Assets` (webc
included exactly when its metadata call succeeds) and send `CacheHit`; on a
miss, run `do_download` and send `CacheMiss` only when it succeeded.
Returns the action trace and the result of the request. -/
def prepare_assets (fs : CacheFs) (w : DownloadWorld) (dir : String) (tc : TestCase) :
    List CacheAction × Except String Assets :=
  let tarballPath := tarballCachePath dir tc
  let webcPath := webcCachePath dir tc
  let t0 := [CacheAction.emit (.Fetching tc), CacheAction.checkMetadata]
  match fs.cacheDirExists, fs.tarballSize with
  | true, some tarballBytes =>
    let assets : Assets :=
      match fs.webcSize with
      | some webcBytes =>
        { tarball := tarballPath, webc := some webcPath,
          total_size := tarballBytes + webcBytes }
      | none => { tarball := tarballPath, webc := none, total_size := tarballBytes }
    (t0 ++ [CacheAction.emit (.CacheHit tc)], .ok assets)
  | _, _ =>
    match (do_download w dir tc).2 with
    | .ok assets =>
      (t0 ++ [CacheAction.networkDownload,
        CacheAction.emit (.CacheMiss tc w.elapsed assets.total_size)], .ok assets)
    | .error e => (t0 ++ [CacheAction.networkDownload], .error e)

/-- Rust `Handler<FetchAssets> for Cache` (`experiment/cache.rs`, newer
revision, lines 55-75): the handler future first acquires one
`download_limiter` permit, then runs `prepare_assets`; the permit guard is
dropped when the future completes, after the whole request. -/
def handleFetchAssets (fs : CacheFs) (w : DownloadWorld) (dir : String) (tc : TestCase) :
    List CacheAction :=
  CacheAction.acquire :: (prepare_assets fs w dir tc).1 ++ [CacheAction.release]

/-- The progress messages contained in an action trace, in order. -/
def cacheEvents (trace : List CacheAction) : List CacheStatusMessage :=
  trace.filterMap fun a =>
    match a with
    | .emit m => some m
    | _ => none

/-- Whether an `Except` value is a success. -/
def exceptIsOk {ε α : Type} : Except ε α → Bool
  | .ok _ => true
  | .error _ => false

/-- The `Assets` value `prepare_assets` builds on a cache hit from the two
metadata results. -/
def hitAssets (dir : String) (tc : TestCase) (tarballBytes : Nat)
    (webcMeta : Option Nat) : Assets :=
  match webcMeta with
  | some webcBytes =>
    { tarball := tarballCachePath dir tc, webc := some (webcCachePath dir tc),
      total_size := tarballBytes + webcBytes }
  | none => { tarball := tarballCachePath dir tc, webc := none, total_size := tarballBytes }

/-- A test case with a tarball URL and no webc URL, used as concrete input. -/
def sampleTestCase : TestCase :=
  ⟨"registry.example.com", "demo", "hello",
    ⟨"pv0", "1.0.0", ⟨"https://example.com/hello.tar.gz", none⟩⟩⟩

/-- A world in which every effectful operation succeeds. -/
def okWorld : DownloadWorld :=
  { createCacheRoot := .ok (), createTemp := .ok (), tmpName := "tmpA1b2",
    tarballDownload := .ok 1024, webcDownload := .ok 2048, removeDest := .ok,
    createParent := .ok (), renameResult := .ok (), removeTempResult := .ok (),
    elapsed := 5 }

/-- A world in which the tarball download fails. -/
def tarballFailWorld : DownloadWorld :=
  { okWorld with tarballDownload := .error "404 Not Found" }

/-- The download operations `do_download` performs, in order: the tarball
always, the webc only when its URL is present, both into the temporary
directory under the destination filenames. -/
def downloadOps (w : DownloadWorld) (dir : String) (tc : TestCase) : List FsOp :=
  let tempPath := dir ++ "/" ++ w.tmpName
  FsOp.downloadTo tc.tarball_url (tempPath ++ "/" ++ fileName (tarballCachePath dir tc)) ::
    (match tc.webc_url with
     | some url =>
       [FsOp.downloadTo url (tempPath ++ "/" ++ fileName (webcCachePath dir tc))]
     | none => [])

/-- Total bytes downloaded: the tarball plus the webc when present. -/
def downloadedBytes (tc : TestCase) (tarballBytes webcBytes : Nat) : Nat :=
  match tc.webc_url with
  | some _ => tarballBytes + webcBytes
  | none => tarballBytes

/-- A world in which everything succeeds except the final rename. -/
def renameFailWorld : DownloadWorld :=
  { okWorld with removeDest := .notFound, renameResult := .error "EXDEV" }

/-! ## Reports and results (`experiment/results.rs`) -/

/-- Rust `SerializableError` from `experiment/results.rs`. -/
structure SerializableError where
  error : String
  detailed_error : String
  causes : List String
deriving Repr, DecidableEq

/-- Rust `SerializableError::from_error` applied to an error without a cause
chain (errors are modelled as single rendered strings): both the one-line
and the detailed rendering are the message and the cause list is empty. -/
def SerializableError.fromError (e : String) : SerializableError := ⟨e, e, []⟩

/-- Rust `ExitStatus` from `experiment/results.rs`. -/
structure ExitStatus where
  success : Bool
  code : Int
deriving Repr, DecidableEq

/-- Rust `Outcome` from `experiment/results.rs`. -/
inductive Outcome where
  | Completed (status : ExitStatus) (run_time : Nat) (base_dir : String)
  | FetchFailed (error : SerializableError)
  | SetupFailed (base_dir : String) (error : SerializableError)
  | SpawnFailed (base_dir : String) (error : SerializableError)
deriving Repr, DecidableEq

/-- Rust `Report` from `experiment/results.rs`. -/
structure Report where
  display_name : String
  package_version : PackageVersion
  outcome : Outcome
deriving Repr, DecidableEq

/-- Rust `Results` from `experiment/results.rs`. -/
structure Results where
  experiment : Experiment
  reports : List Report
  total_time : Nat
  experiment_dir : String
deriving Repr, DecidableEq

/-! ## Orchestrator (`experiment/orchestrator.rs`, newer revision) -/

/-- The per-test-case task of `Handler<BeginExperiment>` (lines 76-104):
ask the cache for the assets; on success forward `BeginTest` to the runner
and use the report of the runner; on failure synthesize a `FetchFailed` report
for the test case.  The cache and the runner are oracles: `fetch` is the
combined mailbox-and-fetch result of `cache.send(FetchAssets …)`, and
`runner tc assets` is the report `runner.send(BeginTest …)` resolves to. -/
def caseReport (runner : TestCase → Assets → Report)
    (fetch : TestCase → Except String Assets) (tc : TestCase) : Report :=
  match fetch tc with
  | .ok assets => runner tc assets
  | .error e =>
    { display_name := tc.display_name, package_version := tc.package_version,
      outcome := .FetchFailed (SerializableError.fromError e) }

/-- Rust `Handler<BeginExperiment>` (lines 49-141): every test case drained from
the discovery channel spawns exactly one future, the `select!` loop pushes
each future into a `FuturesUnordered` and collects every produced report
(the final `collect` drains the in-flight remainder), and the collected
reports form `Results.reports`.  `FuturesUnordered` yields reports in an
arbitrary completion order, modelled by `completionOrder`, a permutation of
the indices of the discovered test cases. -/
def beginExperiment (experiment : Experiment) (base_dir : String)
    (discovered : List TestCase) (fetch : TestCase → Except String Assets)
    (runner : TestCase → Assets → Report) (completionOrder : List Nat)
    (elapsed : Nat) : Results :=
  { experiment := experiment,
    reports := completionOrder.filterMap fun i =>
      (discovered.get? i).map (caseReport runner fetch),
    total_time := elapsed,
    experiment_dir := base_dir }

/-- A second test case, used alongside `sampleTestCase` as concrete input. -/
def sampleTestCase2 : TestCase :=
  ⟨"registry.example.com", "demo", "world",
    ⟨"pv1", "2.0.0", ⟨"https://example.com/world.tar.gz", none⟩⟩⟩

/-- A concrete experiment document. -/
def demoExperiment : Experiment :=
  ⟨"demo/hello", none, [], [], ⟨.Latest, [], []⟩, Filters.default⟩

/-- A concrete runner oracle: a successful run for every test case. -/
def demoRunner : TestCase → Assets → Report :=
  fun tc _ => ⟨tc.display_name, tc.package_version, .Completed ⟨true, 0⟩ 1 "/exp"⟩

/-- A concrete cache oracle: fails for `sampleTestCase2`, succeeds else. -/
def demoFetch : TestCase → Except String Assets :=
  fun tc => if tc = sampleTestCase2 then .error "boom" else .ok ⟨"/cache/t.tar.gz", none, 10⟩

/-! ## Template expansion

`TemplatedString::resolve` (`config.rs` lines 124-127) delegates to
`shellexpand::full_with_context_no_errors`, whose source is not part of
this repository. -/

/-- A character that may appear in a bare `$VAR` variable name. -/
def varChar (c : Char) : Bool := c.isAlphanum || c == '_'

/-- Longest prefix of variable-name characters, and the remainder. -/
def takeName : List Char → List Char × List Char
  | [] => ([], [])
  | c :: rest =>
    if varChar c then
      let p := takeName rest
      (c :: p.1, p.2)
    else ([], c :: rest)

/-- Split at the first `}`: the name before it and the remainder after it. -/
def splitBrace : List Char → Option (List Char × List Char)
  | [] => none
  | c :: rest =>
    if c = '}' then some ([], rest)
    else
      match splitBrace rest with
      | some (name, r) => some (c :: name, r)
      | none => none

/-- Modelled from the spec: the core scanning loop of the `shellexpand`
environment-expansion loop of the crate (the crate is an external dependency whose
source is absent), faithful to the words of the spec — POSIX-style `$VAR` and
`${VAR}` references are replaced by the value the lookup returns, a variable the
lookup does not know expands to the empty string, anything else is copied
verbatim, and no error is ever raised.  Structured as fuel-indexed
recursion; `envExpand` supplies sufficient fuel. -/
def envExpandF (lookup : String → Option String) : Nat → List Char → List Char
  | 0, l => l
  | fuel + 1, l =>
    match l with
    | [] => []
    | c :: rest =>
      if c = '$' then
        match rest with
        | [] => ['$']
        | d :: rest2 =>
          if d = '{' then
            match splitBrace rest2 with
            | some (name, rest3) =>
              ((lookup (String.mk name)).getD "").data ++ envExpandF lookup fuel rest3
            | none => '$' :: '{' :: envExpandF lookup fuel rest2
          else if varChar d then
            ((lookup (String.mk (takeName rest).1)).getD "").data ++
              envExpandF lookup fuel (takeName rest).2
          else
            '$' :: envExpandF lookup fuel rest
      else c :: envExpandF lookup fuel rest

/-- Environment expansion of a character list. -/
def envExpand (lookup : String → Option String) (l : List Char) : List Char :=
  envExpandF lookup l.length l

/-- Modelled from the spec: leading `~` home expansion — a leading `~`
followed by nothing or by `/` is replaced by the home directory. -/
def tildeExpand (home : String) (l : List Char) : List Char :=
  match l with
  | [] => []
  | c :: rest =>
    if c = '~' then
      match rest with
      | [] => home.data
      | d :: _ => if d = '/' then home.data ++ rest else '~' :: rest
    else c :: rest

/-- Modelled from the spec: `shellexpand::full_with_context_no_errors` —
`~` home expansion followed by environment expansion; total, never an
error. -/
def shellexpandFull (home : String) (lookup : String → Option String)
    (s : String) : String :=
  String.mk (envExpand lookup (tildeExpand home s.data))

/-- Rust `TemplatedString::resolve` (`config.rs` lines 124-127). -/
def TemplatedString.resolve (t : TemplatedString) (home : String)
    (lookup : String → Option String) : String :=
  shellexpandFull home lookup t.raw

/-- A token of a templated string: literal text or a `${name}` reference. -/
inductive Token where
  | lit (s : String)
  | var (name : String)
deriving Repr, DecidableEq

/-- The raw characters a token denotes. -/
def Token.chars : Token → List Char
  | .lit s => s.data
  | .var n => '$' :: '{' :: (n.data ++ ['}'])

/-- The raw templated string a token list denotes. -/
def renderTokens (toks : List Token) : String :=
  String.mk ((toks.map Token.chars).flatten)

/-- What a token resolves to under a lookup: literals stay, known
variables become the value the lookup returns, unknown variables become empty. -/
def Token.resolveWith (lookup : String → Option String) : Token → String
  | .lit s => s
  | .var n => (lookup n).getD ""

/-- Well-formedness of one token: literal text is free of `$`, a variable
name is a non-empty run of name characters. -/
def tokenOk : Token → Bool
  | .lit s => s.data.all fun c => !(c = '$')
  | .var n => !n.data.isEmpty && n.data.all varChar

/-- Well-formedness of a token list: every token is well-formed and the
rendered string does not start with `~` (so home expansion is a no-op). -/
def wellFormedTokens (toks : List Token) : Bool :=
  toks.all tokenOk && !(((toks.map Token.chars).flatten).head? == some '~')

/-- A concrete lookup knowing only `X`. -/
def demoLookup : String → Option String :=
  fun s => if s = "X" then some "val" else none

/-! ## Runner command construction (`experiment/runner.rs`, `setup` and
`Env`, older revision — the only revision with `runner.rs` in the tree) -/

/-- Key lookup in an association list, modelling `HashMap::get` (the maps
below have pairwise distinct keys, so insertion order is irrelevant). -/
def lookupVar : List (String × String) → String → Option String
  | [], _ => none
  | (k, v) :: rest, var => if var = k then some v else lookupVar rest var

/-- The `Env` struct of `runner.rs`: the common scope (visible to host and
guest expansion) and the host-only scope. -/
structure REnv where
  common : List (String × String)
  host : List (String × String)

/-- Rust `Env::new` (`runner.rs` lines 229-255): common holds `PKG_NAMESPACE`,
`PKG_NAME`, `PKG_VERSION`, `TARBALL_FILENAME`, plus `WEBC_FILENAME` iff the
test case has a webc URL; host holds `TARBALL_PATH`, `WEBC_PATH` (iff
applicable) and `WORKING_DIR`. -/
def REnv.new (working_dir : String) (tc : TestCase) : REnv :=
  { common :=
      [("PKG_NAMESPACE", tc.«namespace»), ("PKG_NAME", tc.package_name),
        ("PKG_VERSION", tc.version), ("TARBALL_FILENAME", "package.tar.gz")] ++
      (if tc.webc_url.isSome then [("WEBC_FILENAME", "package.webc")] else []),
    host :=
      [("TARBALL_PATH", working_dir ++ "/package.tar.gz")] ++
      (if tc.webc_url.isSome then [("WEBC_PATH", working_dir ++ "/package.webc")] else []) ++
      [("WORKING_DIR", working_dir)] }

/-- Rust `Env::get_host`: the host scope first, falling back to common. -/
def REnv.get_host (env : REnv) (var : String) : Option String :=
  match lookupVar env.host var with
  | some v => some v
  | none => lookupVar env.common var

/-- Rust `Env::get_guest`: the common scope only. -/
def REnv.get_guest (env : REnv) (var : String) : Option String :=
  lookupVar env.common var

/-- Rust `tokio::process::Command`, reduced to what `setup` builds: program
name, argument list, and the child environment assignments. -/
structure Cmd where
  program : String
  args : List String
  envs : List (String × String)
deriving Repr, DecidableEq

/-- Rust `Command::new`. -/
def Cmd.new (program : String) : Cmd := ⟨program, [], []⟩

/-- Rust `Command::arg`. -/
def Cmd.arg (c : Cmd) (a : String) : Cmd := { c with args := c.args ++ [a] }

/-- Rust `Command::env`. -/
def Cmd.env (c : Cmd) (name value : String) : Cmd :=
  { c with envs := c.envs ++ [(name, value)] }

/-- The command `setup` (`runner.rs` lines 170-219) builds once the
filesystem steps succeeded: program `wasmer`; forward `PATH` and
`WASMER_DIR` from the parent environment when present; set every
`experiment.wasmer.env` entry after host-scope expansion; then the
arguments — `run`, the experiment package, each `experiment.wasmer.args`
expanded against the host scope, one `--env={name}={value}` per
`experiment.env` entry with the value expanded against the guest scope, the
literal `--`, and each `experiment.args` expanded against the guest
scope. -/
def setupCmd (experiment : Experiment) (tc : TestCase)
    (working_dir home : String) (parentEnv : String → Option String) : Cmd :=
  let env := REnv.new working_dir tc
  let cmd := Cmd.new "wasmer"
  let cmd := ["PATH", "WASMER_DIR"].foldl
    (fun c var =>
      match parentEnv var with
      | some value => c.env var value
      | none => c) cmd
  let cmd := experiment.wasmer.env.foldl
    (fun c nv => c.env nv.1 (nv.2.resolve home env.get_host)) cmd
  let cmd := (cmd.arg "run").arg experiment.package
  let cmd := experiment.wasmer.args.foldl
    (fun c a => c.arg (a.resolve home env.get_host)) cmd
  let cmd := experiment.env.foldl
    (fun c nv => c.arg ("--env=" ++ nv.1 ++ "=" ++ nv.2.resolve home env.get_guest)) cmd
  let cmd := cmd.arg "--"
  let cmd := experiment.args.foldl
    (fun c a => c.arg (a.resolve home env.get_guest)) cmd
  cmd

/-- Claim C10: for every `Experiment` whose `filters.namespaces` and
`filters.blacklist` are both empty but whose `filters.users` is non-empty or
`include_every_version` is true, `Filters::is_empty` returns true, so serde
omits the `filters` field from the serialized document and the round-tripped
experiment gets `Filters::default()`, losing the `users` and
`include_every_version` settings: the round trip is not the identity. -/
theorem c10_filters_roundtrip_lossy (f : Filters)
    (hns : f.namespaces = []) (hbl : f.blacklist = [])
    (hlost : f.users ≠ [] ∨ f.include_every_version = true) :
    f.is_empty = true ∧ serializedFilters f = none ∧
      roundtripFilters f = Filters.default ∧ roundtripFilters f ≠ f := by
  have hempty : f.is_empty = true := by
    simp [Filters.is_empty, hns, hbl]
  have hser : serializedFilters f = none := by
    simp [serializedFilters, hempty]
  have hrd : roundtripFilters f = Filters.default := by
    simp [roundtripFilters, hser, deserializedFilters]
  refine ⟨hempty, hser, hrd, ?_⟩
  intro heq
  rw [hrd] at heq
  rcases hlost with husers | hiev
  · apply husers
    have h := congrArg Filters.users heq
    simpa [Filters.default] using h.symm
  · have h := congrArg Filters.include_every_version heq
    simp [Filters.default, hiev] at h

/-- Witness for C10 at a concrete experiment filter. -/
theorem c10_filters_roundtrip_lossy_witness :
    (Filters.mk [] ["alice"] [] false).is_empty = true ∧
      serializedFilters (Filters.mk [] ["alice"] [] false) = none ∧
      roundtripFilters (Filters.mk [] ["alice"] [] false) = Filters.default ∧
      roundtripFilters (Filters.mk [] ["alice"] [] false) ≠ Filters.mk [] ["alice"] [] false :=
  c10_filters_roundtrip_lossy (Filters.mk [] ["alice"] [] false) rfl rfl
    (Or.inl (by decide))

/-- Claim C8 counterexample: the source filters on the registry-supplied
`display_name` field of `Package`, not on the computed string
`"{namespace}/{package_name}"`.  For a package whose `display_name` differs
from that string, blacklisting `"{namespace}/{package_name}"` does not stop
a test case for the package from being emitted. -/
theorem c8_blacklist_counterexample :
    ("demo" ++ "/" ++ "nope") ∈ ["demo/nope"] ∧
      pageToTestCases ["demo/nope"] false "registry.example.com"
          [⟨"id0", "nope", "demo", "Nope (a demo)", some ⟨"v0", "1.0.0", ⟨"http://t", none⟩⟩,
            [some ⟨"v0", "1.0.0", ⟨"http://t", none⟩⟩]⟩] =
        [⟨"registry.example.com", "demo", "nope", ⟨"v0", "1.0.0", ⟨"http://t", none⟩⟩⟩] := by
  constructor
  · decide
  · rfl

/-- Claim C8 (amended): discovery matches the blacklist against the
display_name field of the package; every package whose `display_name` is a
member of a non-empty blacklist is dropped, contributing no test case. -/
theorem c8_blacklist_drops_package (blacklist : List String)
    (include_every_version : Bool) (hostname : String)
    (pre post : List Package) (pkg : Package)
    (hmem : pkg.display_name ∈ blacklist) :
    pageToTestCases blacklist include_every_version hostname (pre ++ pkg :: post) =
      pageToTestCases blacklist include_every_version hostname (pre ++ post) := by
  have hne : blacklist.isEmpty = false := by
    cases blacklist with
    | nil => cases hmem
    | cons a l => rfl
  have hcontains : blacklist.contains pkg.display_name = true := by
    exact List.elem_eq_true_of_mem hmem
  unfold pageToTestCases
  rw [List.filter_append, List.filter_append, List.filter_cons]
  simp [hne, hcontains, hmem]

/-- Witness for C8 (amended) at a concrete page. -/
theorem c8_blacklist_drops_package_witness :
    pageToTestCases ["demo/hello"] false "registry.example.com"
        ([] ++ ⟨"id1", "hello", "demo", "demo/hello", some ⟨"v1", "0.1.0", ⟨"http://u", none⟩⟩, []⟩ ::
          [⟨"id2", "other", "demo", "demo/other", some ⟨"v2", "0.2.0", ⟨"http://w", none⟩⟩, []⟩]) =
      pageToTestCases ["demo/hello"] false "registry.example.com"
        ([] ++ [⟨"id2", "other", "demo", "demo/other", some ⟨"v2", "0.2.0", ⟨"http://w", none⟩⟩, []⟩]) :=
  c8_blacklist_drops_package ["demo/hello"] false "registry.example.com" []
    [⟨"id2", "other", "demo", "demo/other", some ⟨"v2", "0.2.0", ⟨"http://w", none⟩⟩, []⟩]
    ⟨"id1", "hello", "demo", "demo/hello", some ⟨"v1", "0.1.0", ⟨"http://u", none⟩⟩, []⟩
    (by decide)

/-- Claim C7 (code bug, evaluated at the failing input): a listing whose
GraphQL response carries a non-empty `errors` array reaches the
`todo!("Handle errors: …")` in `packages_query`, i.e. the task panics; the
panic kills discovery entirely, so a healthy second listing is never
processed and its packages are never forwarded — the code does not log the
error and continue as the claim states. -/
theorem c7_graphql_errors_panic :
    runListings
        [[⟨some ["something went wrong"], some []⟩],
         [⟨none, some [some ⟨some ⟨"id1", "hello", "demo", "demo/hello", none, []⟩⟩]⟩,
          ⟨none, some []⟩]] =
      (.panicked "Handle errors", 1, []) := by
  rfl

theorem prepare_assets_cases (fs : CacheFs) (w : DownloadWorld) (dir : String)
    (tc : TestCase) :
    (∃ ts, fs.cacheDirExists = true ∧ fs.tarballSize = some ts ∧
      prepare_assets fs w dir tc =
        ([.emit (.Fetching tc), .checkMetadata, .emit (.CacheHit tc)],
          .ok (hitAssets dir tc ts fs.webcSize))) ∨
    (∃ a, ¬(fs.cacheDirExists = true ∧ fs.tarballSize.isSome = true) ∧
      (do_download w dir tc).2 = .ok a ∧
      prepare_assets fs w dir tc =
        ([.emit (.Fetching tc), .checkMetadata, .networkDownload,
          .emit (.CacheMiss tc w.elapsed a.total_size)], .ok a)) ∨
    (∃ e, ¬(fs.cacheDirExists = true ∧ fs.tarballSize.isSome = true) ∧
      (do_download w dir tc).2 = .error e ∧
      prepare_assets fs w dir tc =
        ([.emit (.Fetching tc), .checkMetadata, .networkDownload], .error e)) := by
  cases hdir : fs.cacheDirExists <;> cases htar : fs.tarballSize
  case true.some ts =>
    refine Or.inl ⟨ts, rfl, rfl, ?_⟩
    cases hwebc : fs.webcSize <;>
      simp [prepare_assets, hitAssets, hdir, htar, hwebc]
  all_goals
    cases hdl : (do_download w dir tc).2
    case error e =>
      refine Or.inr (Or.inr ⟨e, by simp [hdir, htar], rfl, ?_⟩)
      simp [prepare_assets, hdir, htar, hdl]
    case ok a =>
      refine Or.inr (Or.inl ⟨a, by simp [hdir, htar], rfl, ?_⟩)
      simp [prepare_assets, hdir, htar, hdl]

/-- Claim C3 counterexample: in this revision `CacheStatusMessage` has no
`DownloadFailed` variant at all, and when the download fails
`prepare_assets` returns the error without emitting any event after
`Fetching`: the emitted sequence is exactly `[Fetching]`, not `Fetching`
followed by one of `CacheHit`, `CacheMiss`, `DownloadFailed`. -/
theorem c3_no_event_after_failed_download :
    cacheEvents (prepare_assets ⟨false, none, none⟩ tarballFailWorld "/cache" sampleTestCase).1 =
        [.Fetching sampleTestCase] ∧
      (prepare_assets ⟨false, none, none⟩ tarballFailWorld "/cache" sampleTestCase).2 =
        .error (errContext
          ("Downloading \"" ++ "https://example.com/hello.tar.gz" ++ "\" failed")
          "404 Not Found") := by
  constructor <;> rfl

/-- Claim C3 (amended): `Fetching` is emitted before any other event, and
afterwards at most one more event follows — `CacheHit` on a hit,
`CacheMiss` on a successful download; when the download or a filesystem
operation fails, no further event is emitted (there is no `DownloadFailed`
variant in this revision) and the error becomes the failure
result of the request. -/
theorem c3_fetching_then_at_most_one_event (fs : CacheFs) (w : DownloadWorld)
    (dir : String) (tc : TestCase) :
    (cacheEvents (prepare_assets fs w dir tc).1).head? = some (.Fetching tc) ∧
    (cacheEvents (prepare_assets fs w dir tc).1 =
        [.Fetching tc, .CacheHit tc] ∨
      (∃ b, cacheEvents (prepare_assets fs w dir tc).1 =
        [.Fetching tc, .CacheMiss tc w.elapsed b]) ∨
      cacheEvents (prepare_assets fs w dir tc).1 = [.Fetching tc]) ∧
    (exceptIsOk (prepare_assets fs w dir tc).2 = false ↔
      cacheEvents (prepare_assets fs w dir tc).1 = [.Fetching tc]) := by
  rcases prepare_assets_cases fs w dir tc with ⟨ts, _, _, heq⟩ | ⟨a, _, _, heq⟩ |
      ⟨e, _, _, heq⟩ <;> rw [heq] <;> simp [cacheEvents, exceptIsOk]

/-- Claim C4 counterexample: the handler acquires the semaphore permit
before any work and releases it only when the whole request completes; on
this cache hit the permit is held across the metadata check and the
`CacheHit` message, and no network download happens at all — so the permit
is not held "only for the duration of the network download", and the hit
does consume the permit beyond the metadata check. -/
theorem c4_permit_held_on_cache_hit :
    handleFetchAssets ⟨true, some 7, none⟩ okWorld "/cache" sampleTestCase =
        [.acquire, .emit (.Fetching sampleTestCase), .checkMetadata,
          .emit (.CacheHit sampleTestCase), .release] ∧
      CacheAction.networkDownload ∉
        handleFetchAssets ⟨true, some 7, none⟩ okWorld "/cache" sampleTestCase := by
  constructor
  · rfl
  · decide

/-- Claim C4 (amended): every `FetchAssets` request — hit or miss —
acquires the permit as its very first action and releases it as its very
last, exactly once each; everything `prepare_assets` does happens strictly
between the acquisition and the release. -/
theorem c4_permit_spans_whole_request (fs : CacheFs) (w : DownloadWorld)
    (dir : String) (tc : TestCase) :
    (handleFetchAssets fs w dir tc).head? = some .acquire ∧
    (handleFetchAssets fs w dir tc).getLast? = some .release ∧
    (handleFetchAssets fs w dir tc).count .acquire = 1 ∧
    (handleFetchAssets fs w dir tc).count .release = 1 ∧
    (handleFetchAssets fs w dir tc).dropLast.drop 1 = (prepare_assets fs w dir tc).1 := by
  rcases prepare_assets_cases fs w dir tc with ⟨ts, _, _, heq⟩ | ⟨a, _, _, heq⟩ |
      ⟨e, _, _, heq⟩ <;>
    simp [handleFetchAssets, heq]

/-- Claim C5: a `FetchAssets` request resolves as a cache hit (emits
`CacheHit`) iff the cache directory exists and the tarball file exists; a
webc file alone is never a hit; and on a hit the returned `Assets` carry
the webc path exactly when the webc file is present on disk
(its metadata call succeeds), with `total_size` the sum of the sizes of the present
files. -/
theorem c5_cache_hit_rule :
    (∀ (fs : CacheFs) (w : DownloadWorld) (dir : String) (tc : TestCase),
      CacheStatusMessage.CacheHit tc ∈ cacheEvents (prepare_assets fs w dir tc).1 ↔
        (fs.cacheDirExists = true ∧ fs.tarballSize.isSome = true)) ∧
    (∀ (w : DownloadWorld) (dir : String) (tc : TestCase) (ts : Nat) (ws : Option Nat),
      prepare_assets ⟨true, some ts, ws⟩ w dir tc =
        ([.emit (.Fetching tc), .checkMetadata, .emit (.CacheHit tc)],
          .ok { tarball := tarballCachePath dir tc,
                webc := if ws.isSome then some (webcCachePath dir tc) else none,
                total_size := ts + ws.getD 0 })) := by
  constructor
  · intro fs w dir tc
    rcases prepare_assets_cases fs w dir tc with ⟨ts, hdir, htar, heq⟩ |
        ⟨a, hmiss, _, heq⟩ | ⟨e, hmiss, _, heq⟩ <;> rw [heq] <;>
      simp [cacheEvents]
    · exact ⟨hdir, by simp [htar]⟩
    all_goals
      intro h1
      cases h : fs.tarballSize with
      | none => rfl
      | some ts2 => exact absurd ⟨h1, by simp [h]⟩ hmiss
  · intro w dir tc ts ws
    cases ws <;> simp [prepare_assets]

/-- Claim C6: the atomic publication protocol of `do_download`.  With the
preparation steps succeeding: the files are downloaded into a temporary
directory inside `cache_root` first; the existing destination is removed
recursively with `NotFound` ignored (first and second conjuncts: a
`notFound` removal behaves exactly like a successful one) while any other
removal error aborts with that error before any rename (third conjunct);
the parent of the destination is created and the temporary directory is renamed
onto the destination (fourth conjunct, the success case); and on rename
failure the temporary directory is removed best-effort — the stated result
holds for every `removeTempResult` — and the rename error is the returned
result (first conjunct). -/
theorem c6_atomic_publication (w : DownloadWorld) (dir : String) (tc : TestCase)
    (n m : Nat) (e : String)
    (hroot : w.createCacheRoot = .ok ()) (htemp : w.createTemp = .ok ())
    (htar : w.tarballDownload = .ok n) (hwebc : w.webcDownload = .ok m)
    (hrm : w.removeDest = .notFound) (hparent : w.createParent = .ok ())
    (hren : w.renameResult = .error e) :
    do_download w dir tc =
      ([FsOp.createDirAll dir, FsOp.mkTempDirIn dir] ++ downloadOps w dir tc ++
        [FsOp.removeDirAll (package_version_dir dir tc),
         FsOp.createDirAll (parentDir (package_version_dir dir tc)),
         FsOp.rename (dir ++ "/" ++ w.tmpName) (package_version_dir dir tc),
         FsOp.removeDirAll (dir ++ "/" ++ w.tmpName)],
        .error (errContext
          ("Unable to persist \"" ++ (dir ++ "/" ++ w.tmpName) ++ "\" to \""
            ++ package_version_dir dir tc ++ "\"") e)) ∧
    do_download { w with removeDest := .ok } dir tc = do_download w dir tc ∧
    (∀ e2, do_download { w with removeDest := .err e2 } dir tc =
      ([FsOp.createDirAll dir, FsOp.mkTempDirIn dir] ++ downloadOps w dir tc ++
        [FsOp.removeDirAll (package_version_dir dir tc)],
        .error (errContext
          ("Unable to remove \"" ++ package_version_dir dir tc ++ "\"") e2))) ∧
    do_download { w with renameResult := .ok () } dir tc =
      ([FsOp.createDirAll dir, FsOp.mkTempDirIn dir] ++ downloadOps w dir tc ++
        [FsOp.removeDirAll (package_version_dir dir tc),
         FsOp.createDirAll (parentDir (package_version_dir dir tc)),
         FsOp.rename (dir ++ "/" ++ w.tmpName) (package_version_dir dir tc)],
        .ok { tarball := tarballCachePath dir tc,
              webc := if tc.webc_url.isSome then some (webcCachePath dir tc) else none,
              total_size := downloadedBytes tc n m }) := by
  refine ⟨?_, ?_, fun e2 => ?_, ?_⟩ <;>
    cases hurl : tc.webc_url <;>
      simp [do_download, persistDownloaded, downloadOps, downloadedBytes,
        hroot, htemp, htar, hwebc, hrm, hparent, hren, hurl]

/-- Witness for C6 at a concrete world where the rename fails. -/
theorem c6_atomic_publication_witness :
    do_download renameFailWorld "/cache" sampleTestCase =
      ([FsOp.createDirAll "/cache", FsOp.mkTempDirIn "/cache"] ++
        downloadOps renameFailWorld "/cache" sampleTestCase ++
        [FsOp.removeDirAll (package_version_dir "/cache" sampleTestCase),
         FsOp.createDirAll (parentDir (package_version_dir "/cache" sampleTestCase)),
         FsOp.rename ("/cache" ++ "/" ++ renameFailWorld.tmpName)
           (package_version_dir "/cache" sampleTestCase),
         FsOp.removeDirAll ("/cache" ++ "/" ++ renameFailWorld.tmpName)],
        .error (errContext
          ("Unable to persist \"" ++ ("/cache" ++ "/" ++ renameFailWorld.tmpName)
            ++ "\" to \"" ++ package_version_dir "/cache" sampleTestCase ++ "\"")
          "EXDEV")) :=
  (c6_atomic_publication renameFailWorld "/cache" sampleTestCase 1024 2048 "EXDEV"
    rfl rfl rfl rfl rfl rfl rfl).1

theorem filterMap_get_range {α β : Type} (l : List α) (f : α → β) :
    (List.range l.length).filterMap (fun i => (l.get? i).map f) = l.map f := by
  induction l with
  | nil => simp
  | cons x xs ih =>
    rw [List.length_cons, List.range_succ_eq_map, List.filterMap_cons,
      List.filterMap_map]
    have hfun : ((fun i => Option.map f ((x :: xs).get? i)) ∘ Nat.succ) =
        fun i => Option.map f (xs.get? i) := by
      funext i
      simp [Nat.succ_eq_add_one]
    simp only [List.get?_cons_zero, Option.map_some', hfun, ih, List.map_cons]

/-- Claim C2: every test case produced by discovery contributes exactly one
report to `Results.reports` — the reports are a permutation of one report
per discovered case — and that report is the synthesized `FetchFailed`
report when the cache request fails, and the single report produced by the
runner otherwise. -/
theorem c2_one_report_per_test_case (experiment : Experiment) (base_dir : String)
    (discovered : List TestCase) (fetch : TestCase → Except String Assets)
    (runner : TestCase → Assets → Report) (completionOrder : List Nat)
    (elapsed : Nat)
    (horder : completionOrder.Perm (List.range discovered.length)) :
    (beginExperiment experiment base_dir discovered fetch runner completionOrder
        elapsed).reports.Perm (discovered.map (caseReport runner fetch)) ∧
    (beginExperiment experiment base_dir discovered fetch runner completionOrder
        elapsed).reports.length = discovered.length ∧
    (∀ tc assets, fetch tc = .ok assets → caseReport runner fetch tc = runner tc assets) ∧
    (∀ tc e, fetch tc = .error e → caseReport runner fetch tc =
      { display_name := tc.display_name, package_version := tc.package_version,
        outcome := .FetchFailed (SerializableError.fromError e) }) := by
  have hperm :
      (beginExperiment experiment base_dir discovered fetch runner completionOrder
        elapsed).reports.Perm (discovered.map (caseReport runner fetch)) := by
    have h := horder.filterMap fun i => (discovered.get? i).map (caseReport runner fetch)
    rw [filterMap_get_range] at h
    exact h
  refine ⟨hperm, ?_, ?_, ?_⟩
  · rw [hperm.length_eq, List.length_map]
  · intro tc assets hfetch
    simp [caseReport, hfetch]
  · intro tc e hfetch
    simp [caseReport, hfetch]

/-- Witness for C2 at two discovered test cases completing out of order. -/
theorem c2_one_report_per_test_case_witness :
    (beginExperiment demoExperiment "/exp" [sampleTestCase, sampleTestCase2]
        demoFetch demoRunner [1, 0] 9).reports.Perm
      ([sampleTestCase, sampleTestCase2].map (caseReport demoRunner demoFetch)) ∧
    (beginExperiment demoExperiment "/exp" [sampleTestCase, sampleTestCase2]
        demoFetch demoRunner [1, 0] 9).reports.length = 2 := by
  have h := c2_one_report_per_test_case demoExperiment "/exp"
    [sampleTestCase, sampleTestCase2] demoFetch demoRunner [1, 0] 9 (by decide)
  exact ⟨h.1, h.2.1⟩

theorem splitBrace_length : ∀ (l name r : List Char),
    splitBrace l = some (name, r) → r.length < l.length := by
  intro l
  induction l with
  | nil => intro name r h; cases h
  | cons c rest ih =>
    intro name r h
    by_cases hc : c = '}'
    · simp [splitBrace, hc] at h
      rw [← h.2]
      simp
    · simp only [splitBrace, if_neg hc] at h
      cases hsp : splitBrace rest with
      | none => rw [hsp] at h; cases h
      | some p =>
        rw [hsp] at h
        cases h
        have := ih p.1 p.2 (by rw [hsp])
        simp only [List.length_cons]
        omega

theorem takeName_length : ∀ l : List Char, (takeName l).2.length ≤ l.length := by
  intro l
  induction l with
  | nil => simp [takeName]
  | cons c rest ih =>
    by_cases hc : varChar c
    · simp only [takeName, if_pos hc]
      simp only [List.length_cons]
      omega
    · simp [takeName, if_neg hc]

theorem envExpandF_fuel_irrelevant (lookup : String → Option String) :
    ∀ (n : Nat) (l : List Char) (m : Nat), l.length ≤ n → n ≤ m →
      envExpandF lookup n l = envExpandF lookup m l := by
  intro n
  induction n with
  | zero =>
    intro l m hl _
    have : l = [] := List.eq_nil_of_length_eq_zero (Nat.le_zero.mp hl)
    subst this
    cases m <;> rfl
  | succ n ih =>
    intro l m hl hm
    cases m with
    | zero => omega
    | succ m =>
      cases l with
      | nil => rfl
      | cons c rest =>
        by_cases hc : c = '$'
        · cases rest with
          | nil => subst hc; rfl
          | cons d rest2 =>
            by_cases hd : d = '{'
            · cases hsp : splitBrace rest2 with
              | none =>
                have h2 : rest2.length ≤ n := by
                  simp only [List.length_cons] at hl
                  omega
                simp [envExpandF, hc, hd, hsp, ih rest2 m h2 (by omega)]
              | some p =>
                obtain ⟨name, rest3⟩ := p
                have hlen := splitBrace_length rest2 name rest3 hsp
                have h2 : rest3.length ≤ n := by
                  simp only [List.length_cons] at hl
                  omega
                simp [envExpandF, hc, hd, hsp, ih rest3 m h2 (by omega)]
            · by_cases hv : varChar d = true
              · have hlen := takeName_length (d :: rest2)
                have h2 : (takeName (d :: rest2)).2.length ≤ n := by
                  simp only [List.length_cons] at hl hlen ⊢
                  omega
                simp [envExpandF, hc, hd, hv,
                  ih (takeName (d :: rest2)).2 m h2 (by omega)]
              · have h2 : (d :: rest2).length ≤ n := by
                  simp only [List.length_cons] at hl ⊢
                  omega
                simp [envExpandF, hc, hd, hv, ih (d :: rest2) m h2 (by omega)]
        · have h2 : rest.length ≤ n := by
            simp only [List.length_cons] at hl
            omega
          simp [envExpandF, hc, ih rest m h2 (by omega)]

theorem envExpand_nil (lookup : String → Option String) : envExpand lookup [] = [] := rfl

theorem envExpand_cons_ne (lookup : String → Option String) (c : Char)
    (l : List Char) (hc : ¬(c = '$')) :
    envExpand lookup (c :: l) = c :: envExpand lookup l := by
  simp only [envExpand, List.length_cons, envExpandF, if_neg hc]

theorem envExpand_var (lookup : String → Option String) (name rest : List Char)
    (hsp : splitBrace (name ++ '}' :: rest) = some (name, rest)) :
    envExpand lookup ('$' :: '{' :: (name ++ '}' :: rest)) =
      ((lookup (String.mk name)).getD "").data ++ envExpand lookup rest := by
  have hlen1 := List.length_append name ('}' :: rest)
  have hlen2 : ('}' :: rest).length = rest.length + 1 := rfl
  have hmono := envExpandF_fuel_irrelevant lookup rest.length rest
    ((name ++ '}' :: rest).length + 1) (le_refl _) (by omega)
  simp only [envExpand, List.length_cons]
  rw [hmono]
  generalize (name ++ '}' :: rest).length + 1 = k
  simp [envExpandF, hsp]

theorem splitBrace_append (name : List Char) (rest : List Char)
    (hname : ∀ c ∈ name, ¬(c = '}')) :
    splitBrace (name ++ '}' :: rest) = some (name, rest) := by
  induction name with
  | nil => simp [splitBrace]
  | cons c cs ih =>
    have hc : ¬(c = '}') := hname c (by simp)
    have ihr := ih fun d hd => hname d (by simp [hd])
    simp only [List.cons_append, splitBrace, if_neg hc, List.append_eq, ihr]

theorem varChar_ne_rbrace (c : Char) (h : varChar c = true) : ¬(c = '}') := by
  intro hc
  subst hc
  simp [varChar] at h

theorem envExpand_lit_prefix (lookup : String → Option String) :
    ∀ (s l : List Char), (∀ c ∈ s, ¬(c = '$')) →
      envExpand lookup (s ++ l) = s ++ envExpand lookup l := by
  intro s
  induction s with
  | nil => simp
  | cons c cs ih =>
    intro l hs
    have hc : ¬(c = '$') := hs c (by simp)
    rw [List.cons_append, envExpand_cons_ne lookup c (cs ++ l) hc,
      ih l fun d hd => hs d (by simp [hd])]
    rfl

theorem envExpand_tokens (lookup : String → Option String) :
    ∀ toks : List Token, toks.all tokenOk = true →
      envExpand lookup ((toks.map Token.chars).flatten) =
        ((toks.map fun t => (Token.resolveWith lookup t).data)).flatten := by
  intro toks
  induction toks with
  | nil => simp [envExpand_nil]
  | cons t ts ih =>
    intro hok
    simp only [List.all_cons, Bool.and_eq_true] at hok
    obtain ⟨hT, hTs⟩ := hok
    simp only [List.map_cons, List.flatten_cons]
    cases t with
    | lit s =>
      simp only [tokenOk, List.all_eq_true] at hT
      rw [Token.chars, envExpand_lit_prefix lookup s.data _
        (fun c hc => by simpa using hT c hc), ih hTs]
      rfl
    | var n =>
      simp only [tokenOk, Bool.and_eq_true, List.all_eq_true] at hT
      have hchars : Token.chars (.var n) ++ (ts.map Token.chars).flatten =
          '$' :: '{' :: (n.data ++ '}' :: (ts.map Token.chars).flatten) := by
        simp [Token.chars]
      rw [hchars, envExpand_var lookup n.data _
        (splitBrace_append n.data _ fun c hc => varChar_ne_rbrace c (hT.2 c hc)),
        ih hTs]
      rfl

theorem tildeExpand_noop (home : String) (l : List Char)
    (h : ¬(l.head? = some '~')) : tildeExpand home l = l := by
  cases l with
  | nil => rfl
  | cons c rest =>
    have hc : ¬(c = '~') := by
      intro hc
      exact h (by rw [hc]; rfl)
    simp [tildeExpand, if_neg hc]

/-- Claim C1: for every templated string made of literal text and `${X}`
variable references (rendered from a well-formed token list) and every
lookup, `resolve` substitutes each variable reference the lookup knows with
the value the lookup returns and expands each variable the lookup does not know to
the empty string, leaving literals intact; the expansion is a total
function — no error is ever raised. -/
theorem c1_resolve_substitutes (home : String) (lookup : String → Option String)
    (toks : List Token) (h : wellFormedTokens toks = true) :
    TemplatedString.resolve ⟨renderTokens toks⟩ home lookup =
      String.mk ((toks.map fun t => (Token.resolveWith lookup t).data).flatten) := by
  simp only [wellFormedTokens, Bool.and_eq_true] at h
  obtain ⟨hok, hhead⟩ := h
  have hhead2 : ¬((toks.map Token.chars).flatten.head? = some '~') := by
    intro hcontra
    rw [hcontra] at hhead
    simp at hhead
  unfold TemplatedString.resolve shellexpandFull renderTokens
  rw [show (String.mk ((toks.map Token.chars).flatten)).data =
      (toks.map Token.chars).flatten from rfl,
    tildeExpand_noop home _ hhead2, envExpand_tokens lookup toks hok]

/-- Witness for C1 at a concrete templated string `pre-${X}/${Y}`. -/
theorem c1_resolve_substitutes_witness :
    wellFormedTokens [.lit "pre-", .var "X", .lit "/", .var "Y"] = true ∧
      TemplatedString.resolve ⟨renderTokens [.lit "pre-", .var "X", .lit "/", .var "Y"]⟩
          "/home/user" demoLookup = "pre-val/" := by
  refine ⟨by decide, ?_⟩
  rw [c1_resolve_substitutes "/home/user" demoLookup
    [.lit "pre-", .var "X", .lit "/", .var "Y"] (by decide)]
  decide

theorem Cmd.args_new (p : String) : (Cmd.new p).args = [] := rfl

theorem Cmd.args_arg (c : Cmd) (a : String) : (c.arg a).args = c.args ++ [a] := rfl

theorem Cmd.args_env (c : Cmd) (n v : String) : (c.env n v).args = c.args := rfl

theorem foldl_arg_args {α : Type} (l : List α) (f : α → String) :
    ∀ c : Cmd, (l.foldl (fun c x => c.arg (f x)) c).args = c.args ++ l.map f := by
  induction l with
  | nil => intro c; simp
  | cons x xs ih =>
    intro c
    rw [List.foldl_cons, ih]
    simp [Cmd.arg]

theorem foldl_env_args (l : List (String × TemplatedString)) (f : String × TemplatedString → String) :
    ∀ c : Cmd, (l.foldl (fun c nv => c.env nv.1 (f nv)) c).args = c.args := by
  induction l with
  | nil => intro c; rfl
  | cons x xs ih =>
    intro c
    rw [List.foldl_cons, ih]
    rfl

theorem foldl_whitelist_args (parentEnv : String → Option String) (l : List String) :
    ∀ c : Cmd,
      (l.foldl
        (fun c var =>
          match parentEnv var with
          | some value => c.env var value
          | none => c) c).args = c.args := by
  induction l with
  | nil => intro c; rfl
  | cons x xs ih =>
    intro c
    rw [List.foldl_cons, ih]
    cases parentEnv x <;> rfl

/-- Claim C9: for every experiment and test case, arguments of the spawned command are, in order: `run`, `experiment.package`, each
`experiment.wasmer.args` expanded against the host scope, one
`--env={name}={value}` argument per `experiment.env` entry with the value
expanded against the guest scope, the literal separator `--`, then each
`experiment.args` expanded against the guest scope; and the guest scope
consults only the common variables, so the host-only variables
`TARBALL_PATH`, `WEBC_PATH` and `WORKING_DIR` are invisible to guest-scope
expansion. -/
theorem c9_command_arguments (experiment : Experiment) (tc : TestCase)
    (working_dir home : String) (parentEnv : String → Option String) :
    (setupCmd experiment tc working_dir home parentEnv).args =
      ["run", experiment.package] ++
      experiment.wasmer.args.map
        (fun a => a.resolve home (REnv.new working_dir tc).get_host) ++
      experiment.env.map
        (fun nv => "--env=" ++ nv.1 ++ "=" ++
          nv.2.resolve home (REnv.new working_dir tc).get_guest) ++
      ["--"] ++
      experiment.args.map
        (fun a => a.resolve home (REnv.new working_dir tc).get_guest) ∧
    (∀ var : String, (REnv.new working_dir tc).get_guest var =
      lookupVar (REnv.new working_dir tc).common var) ∧
    (REnv.new working_dir tc).get_guest "TARBALL_PATH" = none ∧
    (REnv.new working_dir tc).get_guest "WEBC_PATH" = none ∧
    (REnv.new working_dir tc).get_guest "WORKING_DIR" = none := by
  refine ⟨?_, fun var => rfl, ?_, ?_, ?_⟩
  · simp only [setupCmd]
    rw [foldl_arg_args, Cmd.args_arg, foldl_arg_args, foldl_arg_args,
      Cmd.args_arg, Cmd.args_arg, foldl_env_args, foldl_whitelist_args,
      Cmd.args_new]
    simp
  all_goals
    cases h : tc.webc_url <;>
      simp [REnv.get_guest, REnv.new, lookupVar, h]

end WasmerBorealis
